import Mathlib

/-!
Verification of the task-lifecycle module (`voxel51/task.py`) of the
platform SDK: the `TaskStatus` state machine, the publish callback made by
`make_publish_callback`, the input/parameter download loops, task
completion, and the two failure protocols (`fail_gracefully` and
`fail_epically`).

Modelling conventions.  Python strings are `List Char` (`Str`); ISO-8601
timestamps are `Nat` (the order on `Nat` mirrors chronological order of
the timestamp strings produced by `eta.core.utils.get_isotime`, and each
call that records a timestamp receives it as an explicit argument);
insertion-ordered Python dicts are association lists.  The external
collaborators (`voxel51.utils` transfer helpers, the API client obtained
by `_get_api_client`) perform side effects: these are modelled by a
`World` oracle that decides whether each attempted effect succeeds or
raises and what local path a download produces, together with an explicit
trace of attempted effects (`List Effect`).  An uncaught Python exception
is `Except.error ()`; a function whose Lean model returns no `Except`
cannot let an exception escape, mirroring a bare `except:` handler.
-/

namespace Voxel

abbrev Str := List Char

/-- Remote-location spec (`voxel51.utils.RemotePathConfig`).  Modelled from
the spec: `voxel51/utils.py` is not among the sources; a location spec is
"a remote-access descriptor (e.g., signed URL) used for downloading or
uploading a single object", modelled by its URL. -/
structure RemotePathConfig where
  url : Str
deriving DecidableEq

/-- Value of a task parameter.  Modelled from the spec: the duck-typed
discrimination `RemotePathConfig.is_path_config_dict` lives in
`voxel51/utils.py`, which is not among the sources; per the design notes
a parameter value is a variant "Literal(value) | RemoteRef(locationSpec)"
and the shape test is the variant tag.  Literal payloads are modelled by
their string rendering. -/
inductive ParamValue where
  | literal (v : Str)
  | location (c : RemotePathConfig)
deriving DecidableEq

/-- Modelled from the spec: `RemotePathConfig.is_path_config_dict(val)`
(`voxel51/utils.py`, not among the sources) recognizes a value
structurally iff it has the shape of a remote-location spec; on the
`ParamValue` variant this is the tag test. -/
def is_path_config_dict : ParamValue → Bool
  | ParamValue.location _ => true
  | ParamValue.literal _ => false

/-- `TaskConfig.__init__` (task.py lines 47-60): required fields
`analytic`, `version`, `job_id`, `status`, `logfile`; `inputs` and
`parameters` default to empty dicts, `output` defaults to `None`. -/
structure TaskConfig where
  analytic : Str
  version : Str
  job_id : Str
  inputs : List (Str × RemotePathConfig)
  parameters : List (Str × ParamValue)
  status : RemotePathConfig
  logfile : RemotePathConfig
  output : Option RemotePathConfig
deriving DecidableEq

/-- `TaskState` enum (task.py lines 63-69). -/
inductive TaskState where
  | SCHEDULED
  | RUNNING
  | COMPLETE
  | FAILED
deriving DecidableEq

/-- `TaskFailureType` enum (task.py lines 72-78). -/
inductive TaskFailureType where
  | USER
  | ANALYTIC
  | PLATFORM
  | NONE
deriving DecidableEq

/-- `TaskStatusMessage` (task.py lines 348-369): a message with the
timestamp captured when it was created. -/
structure TaskStatusMessage where
  message : Str
  time : Nat
deriving DecidableEq

/-- `TaskStatus` (task.py lines 227-345).  The `_publish_callback` closure
bound in `__init__` captures `task_config.job_id` and `task_config.status`;
in this model the publish operation receives the `TaskConfig` it was bound
to as an explicit argument (see `TaskStatus.publish`). -/
structure TaskStatus where
  analytic : Str
  version : Str
  state : TaskState
  failure_type : TaskFailureType
  start_time : Option Nat
  complete_time : Option Nat
  fail_time : Option Nat
  messages : List TaskStatusMessage
  inputs : List (Str × Str)
  posted_data : List (Str × Str)
deriving DecidableEq

/-- `TaskStatus.__init__` (task.py lines 246-263). -/
def make_task_status (task_config : TaskConfig) : TaskStatus :=
  { analytic := task_config.analytic
    version := task_config.version
    state := TaskState.SCHEDULED
    failure_type := TaskFailureType.NONE
    start_time := none
    complete_time := none
    fail_time := none
    messages := []
    inputs := []
    posted_data := [] }

/-- `TaskStatus.add_message` (task.py lines 323-335): appends a timestamped
message and returns the timestamp; `t` is the value of
`etau.get_isotime()` at the call. -/
def TaskStatus.add_message (st : TaskStatus) (msg : Str) (t : Nat) :
    TaskStatus × Nat :=
  ({ st with messages := st.messages ++ [⟨msg, t⟩] }, t)

/-- Default message of `TaskStatus.start`. -/
def task_started_msg : Str := "Task started".data

/-- Default message of `TaskStatus.complete`. -/
def task_complete_msg : Str := "Task complete".data

/-- Default message of `TaskStatus.fail`. -/
def task_failed_msg : Str := "Task failed".data

/-- `TaskStatus.start` (task.py lines 284-294). -/
def TaskStatus.start (st : TaskStatus) (msg : Str) (t : Nat) : TaskStatus :=
  let r := st.add_message msg t
  { r.1 with start_time := some r.2, state := TaskState.RUNNING }

/-- `TaskStatus.complete` (task.py lines 296-306). -/
def TaskStatus.complete (st : TaskStatus) (msg : Str) (t : Nat) : TaskStatus :=
  let r := st.add_message msg t
  { r.1 with complete_time := some r.2, state := TaskState.COMPLETE }

/-- `TaskStatus.fail` (task.py lines 308-321). -/
def TaskStatus.fail (st : TaskStatus) (failure_type : TaskFailureType)
    (msg : Str) (t : Nat) : TaskStatus :=
  let r := st.add_message msg t
  { r.1 with fail_time := some r.2, state := TaskState.FAILED,
             failure_type := failure_type }

/-- Observable side effects of the external collaborators.
`uploadBytes doc dest` is `voxu.upload_bytes(doc.to_str(), dest, ...)`:
the eta serialization `to_str` renders exactly the fields listed by
`TaskStatus.attributes()`, i.e. the whole record, so the uploaded document
is identified with the status it serializes.  `updateJobState` is
`_get_api_client().update_job_state(...)`; `download` is
`voxu.download(src, dir)`; `upload` is `voxu.upload(localPath, dest)`. -/
inductive Effect where
  | uploadBytes (doc : TaskStatus) (dest : RemotePathConfig)
  | updateJobState (job_id : Str) (state : TaskState)
      (failure_type : Option TaskFailureType)
  | download (src : RemotePathConfig) (dir : Option Str)
  | upload (localPath : Str) (dest : RemotePathConfig)
deriving DecidableEq

/-- Oracle for the behaviour of the external collaborators: whether each
attempted effect succeeds (`ok e = true`) or raises, and which local path
a successful `voxu.download` returns. -/
structure World where
  ok : Effect → Bool
  downloadPath : RemotePathConfig → Option Str → Str

/-- `make_publish_callback` (task.py lines 437-470): the callback first
writes the serialized status to the bound status location, then reports
the current state (with `failure_type` exactly when the state is FAILED)
to the API keyed by the bound job id.  Each attempted effect enters the
trace; a raising effect aborts the callback with `Except.error ()`. -/
def make_publish_callback (job_id : Str) (status_path_config : RemotePathConfig) :
    World → TaskStatus → List Effect × Except Unit Unit :=
  fun w task_status =>
    let e1 := Effect.uploadBytes task_status status_path_config
    if w.ok e1 then
      let failure_type : Option TaskFailureType :=
        if task_status.state = TaskState.FAILED then some task_status.failure_type
        else none
      let e2 := Effect.updateJobState job_id task_status.state failure_type
      if w.ok e2 then ([e1, e2], Except.ok ()) else ([e1, e2], Except.error ())
    else ([e1], Except.error ())

/-- `TaskStatus.publish` (task.py lines 337-339): invokes the callback
bound at construction to `(task_config.job_id, task_config.status)`. -/
def TaskStatus.publish (st : TaskStatus) (task_config : TaskConfig)
    (w : World) : List Effect × Except Unit Unit :=
  make_publish_callback task_config.job_id task_config.status w st

/-- Apostrophe character (used in the progress-message templates). -/
def squote : Char := Char.ofNat 39

/-- The message `"Input '%s' downloaded" % name` (task.py line 489). -/
def input_msg (name : Str) : Str :=
  "Input ".data ++ [squote] ++ name ++ [squote] ++ " downloaded".data

/-- The message `"Parameter '%s' downloaded" % name` (task.py line 515). -/
def param_msg (name : Str) : Str :=
  "Parameter ".data ++ [squote] ++ name ++ [squote] ++ " downloaded".data

/-- Loop body of `download_inputs` (task.py lines 484-491), iterating the
config inputs in insertion order.  `ts k` is the `get_isotime()` value of
the `k`-th message recorded by this call; a raising download propagates
(`Except.error ()`) with the partially updated status retained. -/
def download_inputs_go (w : World) (inputs_dir : Str) (ts : Nat → Nat) :
    Nat → List (Str × RemotePathConfig) → TaskStatus →
    List Effect × TaskStatus × Except Unit (List (Str × Str))
  | _, [], st => ([], st, Except.ok [])
  | k, (name, path_config) :: rest, st =>
    let e := Effect.download path_config (some inputs_dir)
    if w.ok e then
      let local_path := w.downloadPath path_config (some inputs_dir)
      let st1 := (st.add_message (input_msg name) (ts k)).1
      let r := download_inputs_go w inputs_dir ts (k + 1) rest st1
      (e :: r.1, r.2.1, Except.map (fun ps => (name, local_path) :: ps) r.2.2)
    else ([e], st, Except.error ())

/-- `download_inputs` (task.py lines 473-491). -/
def download_inputs (w : World) (inputs_dir : Str) (ts : Nat → Nat)
    (task_config : TaskConfig) (task_status : TaskStatus) :
    List Effect × TaskStatus × Except Unit (List (Str × Str)) :=
  download_inputs_go w inputs_dir ts 0 task_config.inputs task_status

/-- Loop body of `parse_parameters` (task.py lines 508-520): a parameter
whose value passes `is_path_config_dict` (here: the `location` variant) is
downloaded into `data_params_dir` and a progress message recorded; any
other value is passed through unchanged with no message. -/
def parse_parameters_go (w : World) (data_params_dir : Option Str)
    (ts : Nat → Nat) :
    Nat → List (Str × ParamValue) → TaskStatus →
    List Effect × TaskStatus × Except Unit (List (Str × Str))
  | _, [], st => ([], st, Except.ok [])
  | k, (name, ParamValue.location path_config) :: rest, st =>
    let e := Effect.download path_config data_params_dir
    if w.ok e then
      let local_path := w.downloadPath path_config data_params_dir
      let st1 := (st.add_message (param_msg name) (ts k)).1
      let r := parse_parameters_go w data_params_dir ts (k + 1) rest st1
      (e :: r.1, r.2.1, Except.map (fun ps => (name, local_path) :: ps) r.2.2)
    else ([e], st, Except.error ())
  | k, (name, ParamValue.literal v) :: rest, st =>
    let r := parse_parameters_go w data_params_dir ts k rest st
    (r.1, r.2.1, Except.map (fun ps => (name, v) :: ps) r.2.2)

/-- `parse_parameters` (task.py lines 494-520). -/
def parse_parameters (w : World) (data_params_dir : Option Str)
    (ts : Nat → Nat) (task_config : TaskConfig) (task_status : TaskStatus) :
    List Effect × TaskStatus × Except Unit (List (Str × Str)) :=
  parse_parameters_go w data_params_dir ts 0 task_config.parameters task_status

/-- `upload_logfile` (task.py lines 600-608): one upload to the config's
logfile location; the attempt enters the trace, and its failure raises. -/
def upload_logfile (w : World) (logfile_path : Str)
    (task_config : TaskConfig) : List Effect × Except Unit Unit :=
  let e := Effect.upload logfile_path task_config.logfile
  ([e], if w.ok e then Except.ok () else Except.error ())

/-- `complete_task` (task.py lines 585-598): mark the status complete,
publish it, and only then upload the logfile when a path was given.  No
`try` block here: a publish failure or an upload failure propagates. -/
def complete_task (w : World) (task_config : TaskConfig)
    (task_status : TaskStatus) (logfile_path : Option Str) (t : Nat) :
    TaskStatus × List Effect × Except Unit Unit :=
  let st1 := task_status.complete task_complete_msg t
  match st1.publish task_config w with
  | (tr1, Except.error e) => (st1, tr1, Except.error e)
  | (tr1, Except.ok _) =>
    match logfile_path with
    | none => (st1, tr1, Except.ok ())
    | some p =>
      let r := upload_logfile w p task_config
      (st1, tr1 ++ r.1, r.2)

/-- `fail_gracefully` (task.py lines 611-638): mark the status FAILED,
then attempt to publish inside `try/except:`, then attempt the logfile
upload (if a path was given) inside a second independent `try/except:`.
Both results are discarded, so neither failure propagates (the return type
carries no `Except`), while the trace keeps both attempts. -/
def fail_gracefully (w : World) (failure_type : TaskFailureType)
    (task_config : TaskConfig) (task_status : TaskStatus)
    (logfile_path : Option Str) (t : Nat) : TaskStatus × List Effect :=
  let st1 := task_status.fail failure_type task_failed_msg t
  let pub := st1.publish task_config w
  let up : List Effect :=
    match logfile_path with
    | some p => (upload_logfile w p task_config).1
    | none => []
  (st1, pub.1 ++ up)

/-- Characters allowed in a URL scheme (`urllib.parse.scheme_chars`). -/
def is_scheme_char (c : Char) : Bool :=
  c.isAlpha || c.isDigit || c = '+' || c = '-' || c = '.'

/-- Splits a string at its first colon: `find_colon s = some (pre, rest)`
when `s = pre ++ ':' :: rest` with no colon in `pre`; `none` when `s` has
no colon.  Models `url.find(':')` in `urllib.parse.urlsplit`. -/
def find_colon : Str → Option (Str × Str)
  | [] => none
  | ':' :: r => some ([], r)
  | c :: r => (find_colon r).map (fun pr => (c :: pr.1, pr.2))

/-- Scheme removal of `urllib.parse.urlsplit`: when the text before the
first colon is nonempty and made of scheme characters, the scheme and the
colon are dropped; otherwise the string is unchanged. -/
def strip_scheme (s : Str) : Str :=
  match find_colon s with
  | none => s
  | some (pre, rest) => if pre ≠ [] ∧ pre.all is_scheme_char then rest else s

/-- The netloc bracket check of `urllib.parse.urlsplit`, which raises
`ValueError("Invalid IPv6 URL")` when the netloc contains one of the
square brackets without the other. -/
def invalid_ipv6_netloc (netloc : Str) : Bool :=
  (netloc.any (fun c => c = '[') && !netloc.any (fun c => c = ']')) ||
    (netloc.any (fun c => c = ']') && !netloc.any (fun c => c = '['))

/-- Params removal of `urllib.parse.urlparse` (`_splitparams`): a `;` and
everything after it is dropped from the final path segment. -/
def split_params (p : Str) : Str :=
  let tail := (p.reverse.takeWhile (fun c => c ≠ '/')).reverse
  p.take (p.length - tail.length) ++ tail.takeWhile (fun c => c ≠ ';')

/-- Path component of `urllib.parse.urlparse(url)` (`.path`): the fragment
(first `#` on) and the query (first `?` on) are removed, then the scheme,
then — when the remainder begins with `//` — the netloc up to the next
slash, whose brackets must match or the stdlib raises `ValueError`
(`Except.error ()` here).  Params are split off the final segment. -/
def urlparse_path (url : Str) : Except Unit Str :=
  let u1 := url.takeWhile (fun c => c ≠ '#')
  let u2 := u1.takeWhile (fun c => c ≠ '?')
  match strip_scheme u2 with
  | '/' :: '/' :: rest =>
    let netloc := rest.takeWhile (fun c => c ≠ '/')
    if invalid_ipv6_netloc netloc then Except.error ()
    else Except.ok (split_params (rest.dropWhile (fun c => c ≠ '/')))
  | other => Except.ok (split_params other)

/-- Value of a hexadecimal digit, or `none`. -/
def hex_val (c : Char) : Option Nat :=
  if '0' ≤ c ∧ c ≤ '9' then some (c.toNat - '0'.toNat)
  else if 'a' ≤ c ∧ c ≤ 'f' then some (10 + c.toNat - 'a'.toNat)
  else if 'A' ≤ c ∧ c ≤ 'F' then some (10 + c.toNat - 'A'.toNat)
  else none

/-- `urllib.parse.unquote` restricted to single-byte escapes: each valid
`%XX` escape is decoded to the character with code `XX`, invalid escapes
are left verbatim.  (Multi-byte UTF-8 escape sequences are outside the
model; the theorems below only use percent-free paths.) -/
def unquote : Str → Str
  | [] => []
  | c :: rest =>
    if c = '%' then
      match rest with
      | c1 :: c2 :: rest2 =>
        match hex_val c1, hex_val c2 with
        | some h1, some h2 => Char.ofNat (16 * h1 + h2) :: unquote rest2
        | _, _ => '%' :: unquote (c1 :: c2 :: rest2)
      | [c1] => '%' :: unquote [c1]
      | [] => ['%']
    else c :: unquote rest
termination_by s => s.length
decreasing_by all_goals simp <;> omega

/-- POSIX `os.path.basename`: the part of the path after its last slash. -/
def basename (p : Str) : Str :=
  (p.reverse.takeWhile (fun c => c ≠ '/')).reverse

/-- POSIX `os.path.dirname`: everything up to and including the last
slash (`p[:i]` with `i = p.rfind('/') + 1`), then — unless that head is
empty or all slashes — with trailing slashes stripped.  Computed here on
the reversed list: `p.reverse.dropWhile (· ≠ '/')` is the reversed head,
and stripping its leading slashes strips the head's trailing ones. -/
def dirname (p : Str) : Str :=
  let revhead := p.reverse.dropWhile (fun c => c ≠ '/')
  if revhead ≠ [] ∧ revhead.any (fun c => c ≠ '/') then
    (revhead.dropWhile (fun c => c = '/')).reverse
  else revhead.reverse

/-- `fail_epically` (task.py lines 641-677).  The job id is extracted from
the task-config URL by `os.path.basename(os.path.dirname(unquote(path)))`
OUTSIDE the `try` block, so a `ValueError` raised by `urlparse` escapes
(`Except.error ()`).  Inside the `try`, a single
`update_job_state(job_id, FAILED, failure_type=PLATFORM)` call is
attempted; the bare `except:` swallows its failure, so the returned trace
is the same for every `World`. -/
def fail_epically (w : World) (task_config_url : Str) :
    Except Unit (List Effect) :=
  match urlparse_path task_config_url with
  | Except.error e => Except.error e
  | Except.ok path =>
    let job_id := basename (dirname (unquote path))
    Except.ok
      [Effect.updateJobState job_id TaskState.FAILED
        (some TaskFailureType.PLATFORM)]

/-- URL of the shape assumed by `fail_epically`'s extraction convention:
`https://<host>/<mid>/<jobId>/<fname>?<query>`. -/
def mk_url (host mid jobId fname q : Str) : Str :=
  "https://".data ++ host ++ ['/'] ++ mid ++ ['/'] ++ jobId ++ ['/'] ++
    fname ++ ['?'] ++ q

/-- `ok_seg bad s` holds when no character of `s` belongs to `bad`. -/
def ok_seg (bad : List Char) (s : Str) : Bool :=
  s.all (fun c => !bad.contains c)

/-- Expected progress messages of `download_inputs`: one per input, in
insertion order, the `k`-th one timestamped `ts k`. -/
def input_msgs (ts : Nat → Nat) : Nat → List (Str × RemotePathConfig) →
    List TaskStatusMessage
  | _, [] => []
  | k, (name, _) :: rest => ⟨input_msg name, ts k⟩ :: input_msgs ts (k + 1) rest

/-- Expected progress messages of `parse_parameters`: one per
remote-location parameter, none for a literal parameter. -/
def param_msgs (ts : Nat → Nat) : Nat → List (Str × ParamValue) →
    List TaskStatusMessage
  | _, [] => []
  | k, (name, ParamValue.location _) :: rest =>
    ⟨param_msg name, ts k⟩ :: param_msgs ts (k + 1) rest
  | k, (_, ParamValue.literal _) :: rest => param_msgs ts k rest

/-- Expected value of one parsed parameter: the downloaded local path for
a remote-location value, the literal value unchanged otherwise. -/
def param_out (w : World) (dir : Option Str) : ParamValue → Str
  | ParamValue.location path_config => w.downloadPath path_config dir
  | ParamValue.literal v => v

/-- Expected effect trace of `parse_parameters`: one download per
remote-location parameter, nothing for a literal parameter. -/
def param_trace (dir : Option Str) : List (Str × ParamValue) → List Effect
  | [] => []
  | (_, ParamValue.location path_config) :: rest =>
    Effect.download path_config dir :: param_trace dir rest
  | (_, ParamValue.literal _) :: rest => param_trace dir rest

/-- Download-success condition for one parameter. -/
def param_dl_ok (w : World) (dir : Option Str) (p : Str × ParamValue) : Bool :=
  match p.2 with
  | ParamValue.location path_config => w.ok (Effect.download path_config dir)
  | ParamValue.literal _ => true

/-- Concrete location spec used by the witnesses. -/
def rpcW : RemotePathConfig := ⟨['u']⟩

/-- Concrete task config used by the witnesses. -/
def cfgW : TaskConfig :=
  { analytic := ['a']
    version := ['v']
    job_id := ['j']
    inputs := [(['i'], rpcW), (['m'], ⟨['w']⟩)]
    parameters := [(['p'], ParamValue.literal ['5']),
                   (['d'], ParamValue.location rpcW)]
    status := rpcW
    logfile := ⟨['g']⟩
    output := none }

/-- World in which every external effect succeeds. -/
def wW : World :=
  { ok := fun _ => true, downloadPath := fun _ _ => ['L'] }

/-- World in which every `voxu.upload` raises and everything else
succeeds. -/
def wUpFail : World :=
  { ok := fun e => match e with | Effect.upload _ _ => false | _ => true
    downloadPath := fun _ _ => ['L'] }

theorem complete_state (st : TaskStatus) (msg : Str) (t : Nat) :
    (st.complete msg t).state = TaskState.COMPLETE := rfl

theorem fail_state (st : TaskStatus) (ft : TaskFailureType) (msg : Str) (t : Nat) :
    (st.fail ft msg t).state = TaskState.FAILED := rfl

/-- C6: for every valid TaskConfig, the TaskStatus constructed from it has
state SCHEDULED, failure_type NONE, all three timestamps absent, empty
messages, empty inputs and empty posted_data, with analytic and version
copied from the config. -/
theorem make_task_status_fresh (cfg : TaskConfig) :
    (make_task_status cfg).state = TaskState.SCHEDULED ∧
    (make_task_status cfg).failure_type = TaskFailureType.NONE ∧
    (make_task_status cfg).start_time = none ∧
    (make_task_status cfg).complete_time = none ∧
    (make_task_status cfg).fail_time = none ∧
    (make_task_status cfg).messages = [] ∧
    (make_task_status cfg).inputs = [] ∧
    (make_task_status cfg).posted_data = [] ∧
    (make_task_status cfg).analytic = cfg.analytic ∧
    (make_task_status cfg).version = cfg.version :=
  ⟨rfl, rfl, rfl, rfl, rfl, rfl, rfl, rfl, rfl, rfl⟩

/-- C4: for every TaskStatus, in any state and with any number of recorded
messages, `fail(failureType, msg)` leaves state FAILED, failure_type equal
to the given one, fail_time equal to the timestamp of the message appended
by this call, and that message appended to the end of the messages list. -/
theorem fail_marks_failed (st : TaskStatus) (ft : TaskFailureType)
    (msg : Str) (t : Nat) :
    (st.fail ft msg t).state = TaskState.FAILED ∧
    (st.fail ft msg t).failure_type = ft ∧
    (st.fail ft msg t).fail_time = some t ∧
    (st.fail ft msg t).messages = st.messages ++ [⟨msg, t⟩] :=
  ⟨rfl, rfl, rfl, rfl⟩

/-- C5: for a freshly constructed TaskStatus, `start()` (at clock value
`t1`) followed by `complete()` (at clock value `t2 ≥ t1`, as the monotone
wall clock guarantees) yields state COMPLETE, start_time the timestamp of
the first appended message, complete_time the timestamp of the second, and
complete_time ≥ start_time. -/
theorem start_then_complete (cfg : TaskConfig) (t1 t2 : Nat) (h : t1 ≤ t2) :
    (((make_task_status cfg).start task_started_msg t1).complete
        task_complete_msg t2).state = TaskState.COMPLETE ∧
    (((make_task_status cfg).start task_started_msg t1).complete
        task_complete_msg t2).start_time = some t1 ∧
    (((make_task_status cfg).start task_started_msg t1).complete
        task_complete_msg t2).complete_time = some t2 ∧
    (((make_task_status cfg).start task_started_msg t1).complete
        task_complete_msg t2).messages =
      [⟨task_started_msg, t1⟩, ⟨task_complete_msg, t2⟩] ∧
    t1 ≤ t2 :=
  ⟨rfl, rfl, rfl, rfl, h⟩

/-- Witness for C5 at the concrete config `cfgW` and clock values 0, 1. -/
theorem start_then_complete_witness :
    (0 : Nat) ≤ 1 ∧
    ((((make_task_status cfgW).start task_started_msg 0).complete
        task_complete_msg 1).state = TaskState.COMPLETE ∧
    (((make_task_status cfgW).start task_started_msg 0).complete
        task_complete_msg 1).start_time = some 0 ∧
    (((make_task_status cfgW).start task_started_msg 0).complete
        task_complete_msg 1).complete_time = some 1 ∧
    (((make_task_status cfgW).start task_started_msg 0).complete
        task_complete_msg 1).messages =
      [⟨task_started_msg, 0⟩, ⟨task_complete_msg, 1⟩] ∧
    (0 : Nat) ≤ 1) :=
  ⟨Nat.zero_le 1, start_then_complete cfgW 0 1 (Nat.zero_le 1)⟩

/-- C10: each of `start`, `complete` and `fail` appends exactly one
message and writes only its own timestamp field: the other two timestamp
fields, the inputs mapping, the posted_data mapping and all previously
recorded messages are unchanged, in whatever state the status already is
(so an out-of-order call never clears another transition's timestamp). -/
theorem transition_frame (st : TaskStatus) (msg : Str) (t : Nat)
    (ft : TaskFailureType) :
    (st.start msg t).complete_time = st.complete_time ∧
    (st.start msg t).fail_time = st.fail_time ∧
    (st.start msg t).inputs = st.inputs ∧
    (st.start msg t).posted_data = st.posted_data ∧
    (st.start msg t).messages = st.messages ++ [⟨msg, t⟩] ∧
    (st.complete msg t).start_time = st.start_time ∧
    (st.complete msg t).fail_time = st.fail_time ∧
    (st.complete msg t).inputs = st.inputs ∧
    (st.complete msg t).posted_data = st.posted_data ∧
    (st.complete msg t).messages = st.messages ++ [⟨msg, t⟩] ∧
    (st.fail ft msg t).start_time = st.start_time ∧
    (st.fail ft msg t).complete_time = st.complete_time ∧
    (st.fail ft msg t).inputs = st.inputs ∧
    (st.fail ft msg t).posted_data = st.posted_data ∧
    (st.fail ft msg t).messages = st.messages ++ [⟨msg, t⟩] :=
  ⟨rfl, rfl, rfl, rfl, rfl, rfl, rfl, rfl, rfl, rfl, rfl, rfl, rfl, rfl, rfl⟩

/-- C3: the publish callback for a bound `(jobId, statusLocation)` pair
performs exactly two effects in a fixed order — first the serialized
status document is written to the bound status location, then
`update_job_state` is called with the bound job id and the current state —
and the `failure_type` argument is the status's failure_type exactly when
the state is FAILED and `None` otherwise.  When the document write raises,
the job-state call is never attempted. -/
theorem make_publish_callback_effects (w : World) (job_id : Str)
    (spc : RemotePathConfig) (st : TaskStatus) :
    (w.ok (Effect.uploadBytes st spc) = true →
      make_publish_callback job_id spc w st =
        ([Effect.uploadBytes st spc,
          Effect.updateJobState job_id st.state
            (if st.state = TaskState.FAILED then some st.failure_type
             else none)],
         if w.ok (Effect.updateJobState job_id st.state
            (if st.state = TaskState.FAILED then some st.failure_type
             else none)) then Except.ok () else Except.error ())) ∧
    (w.ok (Effect.uploadBytes st spc) = false →
      make_publish_callback job_id spc w st =
        ([Effect.uploadBytes st spc], Except.error ())) := by
  constructor
  · intro h1
    simp only [make_publish_callback, h1, if_true]
    cases hw : w.ok (Effect.updateJobState job_id st.state
        (if st.state = TaskState.FAILED then some st.failure_type else none)) <;>
      simp [hw]
  · intro h1
    simp [make_publish_callback, h1]

/-- Witness for C3: all-succeeding world, fresh status from `cfgW`. -/
theorem make_publish_callback_effects_witness :
    wW.ok (Effect.uploadBytes (make_task_status cfgW) cfgW.status) = true ∧
    make_publish_callback cfgW.job_id cfgW.status wW (make_task_status cfgW) =
      ([Effect.uploadBytes (make_task_status cfgW) cfgW.status,
        Effect.updateJobState cfgW.job_id TaskState.SCHEDULED none],
       Except.ok ()) :=
  ⟨rfl, (make_publish_callback_effects wW cfgW.job_id cfgW.status
    (make_task_status cfgW)).1 rfl⟩

/-- C1: `fail_gracefully` first marks the status FAILED with the given
failure type, then attempts `publish()` on the failed status and,
independently, attempts the logfile upload when a path is given.  The
equality holds for every `World`: even in a world where every publish
effect raises, the upload attempt still follows the publish attempt in
the trace, and the result type carries no exception, so neither failure
propagates out of `fail_gracefully`. -/
theorem fail_gracefully_winddown (w : World) (ft : TaskFailureType)
    (cfg : TaskConfig) (st : TaskStatus) (lp : Option Str) (t : Nat) :
    fail_gracefully w ft cfg st lp t =
      (st.fail ft task_failed_msg t,
       ((st.fail ft task_failed_msg t).publish cfg w).1 ++
         (match lp with
          | some p => [Effect.upload p cfg.logfile]
          | none => [])) ∧
    (st.fail ft task_failed_msg t).state = TaskState.FAILED ∧
    (st.fail ft task_failed_msg t).failure_type = ft := by
  refine ⟨?_, rfl, rfl⟩
  cases lp <;> rfl

/-- C9: `complete_task` first marks the status COMPLETE and publishes it
(status-document write, then job-state report), and only if the publish
succeeded and a logfile path was given uploads the logfile; an upload
failure — and likewise a publish failure — propagates (`Except.error`). -/
theorem complete_task_spec (w : World) (cfg : TaskConfig) (st : TaskStatus)
    (q : Str) (t : Nat) :
    (w.ok (Effect.uploadBytes (st.complete task_complete_msg t) cfg.status)
        = true →
     w.ok (Effect.updateJobState cfg.job_id TaskState.COMPLETE none) = true →
     complete_task w cfg st (some q) t =
       (st.complete task_complete_msg t,
        [Effect.uploadBytes (st.complete task_complete_msg t) cfg.status,
         Effect.updateJobState cfg.job_id TaskState.COMPLETE none,
         Effect.upload q cfg.logfile],
        if w.ok (Effect.upload q cfg.logfile) then Except.ok ()
        else Except.error ())) ∧
    (w.ok (Effect.uploadBytes (st.complete task_complete_msg t) cfg.status)
        = false →
     complete_task w cfg st (some q) t =
       (st.complete task_complete_msg t,
        [Effect.uploadBytes (st.complete task_complete_msg t) cfg.status],
        Except.error ())) := by
  constructor
  · intro h1 h2
    simp only [complete_task, TaskStatus.publish, make_publish_callback,
      upload_logfile, complete_state, h1, if_true]
    simp only [show (TaskState.COMPLETE = TaskState.FAILED) = False by simp,
      if_false, h2, if_true]
    cases hu : w.ok (Effect.upload q cfg.logfile) <;> simp [hu]
  · intro h1
    simp [complete_task, TaskStatus.publish, make_publish_callback, h1]

/-- Witness for C9: a world in which publish succeeds and the logfile
upload raises; the upload failure propagates as `Except.error ()`. -/
theorem complete_task_spec_witness :
    wUpFail.ok (Effect.uploadBytes ((make_task_status cfgW).complete
      task_complete_msg 0) cfgW.status) = true ∧
    wUpFail.ok (Effect.updateJobState cfgW.job_id TaskState.COMPLETE none)
      = true ∧
    complete_task wUpFail cfgW (make_task_status cfgW) (some ['l']) 0 =
      ((make_task_status cfgW).complete task_complete_msg 0,
       [Effect.uploadBytes ((make_task_status cfgW).complete
          task_complete_msg 0) cfgW.status,
        Effect.updateJobState cfgW.job_id TaskState.COMPLETE none,
        Effect.upload ['l'] cfgW.logfile],
       Except.error ()) :=
  ⟨rfl, rfl,
    (complete_task_spec wUpFail cfgW (make_task_status cfgW) ['l'] 0).1
      rfl rfl⟩

theorem input_msgs_length (ts : Nat → Nat) :
    ∀ (k : Nat) (l : List (Str × RemotePathConfig)),
      (input_msgs ts k l).length = l.length
  | _, [] => rfl
  | k, (_, _) :: rest => by
    simp [input_msgs, input_msgs_length ts (k + 1) rest]

theorem keys_of_pairs {α β γ : Type} (l : List (α × β)) (f : α × β → γ) :
    (l.map (fun p => (p.1, f p))).map Prod.fst = l.map Prod.fst := by
  induction l with
  | nil => rfl
  | cons p rest ih => simp [ih]

theorem download_inputs_go_spec (w : World) (dir : Str) (ts : Nat → Nat) :
    ∀ (inputs : List (Str × RemotePathConfig)) (k : Nat) (st : TaskStatus),
      inputs.all (fun p => w.ok (Effect.download p.2 (some dir))) = true →
      download_inputs_go w dir ts k inputs st =
        (inputs.map (fun p => Effect.download p.2 (some dir)),
         { st with messages := st.messages ++ input_msgs ts k inputs },
         Except.ok
           (inputs.map (fun p => (p.1, w.downloadPath p.2 (some dir)))))
  | [], _, st, _ => by simp [download_inputs_go, input_msgs]
  | (name, pc) :: rest, k, st, hok => by
    simp only [List.all_cons, Bool.and_eq_true] at hok
    have ih := download_inputs_go_spec w dir ts rest (k + 1)
      ((st.add_message (input_msg name) (ts k)).1) hok.2
    simp only [TaskStatus.add_message] at ih
    simp [download_inputs_go, hok.1, TaskStatus.add_message, ih, input_msgs,
      Except.map, List.append_assoc]

/-- C8: for every TaskConfig, when every input download succeeds,
`download_inputs` returns a mapping whose keys are exactly the input
names (in the insertion order of the config's inputs), each mapped to the
local path produced by downloading that input into `inputs_dir`; it
appends exactly one message per input, named for that input, in insertion
order; and its effect trace contains only downloads — in particular no
status-document write and no job-state report, so the status is not
published by this operation. -/
theorem download_inputs_spec (w : World) (dir : Str) (ts : Nat → Nat)
    (cfg : TaskConfig) (st : TaskStatus)
    (hok : cfg.inputs.all
      (fun p => w.ok (Effect.download p.2 (some dir))) = true) :
    download_inputs w dir ts cfg st =
      (cfg.inputs.map (fun p => Effect.download p.2 (some dir)),
       { st with messages := st.messages ++ input_msgs ts 0 cfg.inputs },
       Except.ok
         (cfg.inputs.map (fun p => (p.1, w.downloadPath p.2 (some dir))))) ∧
    (cfg.inputs.map
        (fun p => (p.1, w.downloadPath p.2 (some dir)))).map Prod.fst
      = cfg.inputs.map Prod.fst ∧
    (input_msgs ts 0 cfg.inputs).length = cfg.inputs.length ∧
    (∀ e ∈ cfg.inputs.map (fun p => Effect.download p.2 (some dir)),
      (∀ doc dest, e ≠ Effect.uploadBytes doc dest) ∧
      (∀ jid s ftp, e ≠ Effect.updateJobState jid s ftp)) := by
  refine ⟨download_inputs_go_spec w dir ts cfg.inputs 0 st hok,
    keys_of_pairs cfg.inputs _, input_msgs_length ts 0 cfg.inputs, ?_⟩
  intro e he
  simp only [List.mem_map] at he
  obtain ⟨p, -, rfl⟩ := he
  exact ⟨fun doc dest h => Effect.noConfusion h,
         fun jid s ftp h => Effect.noConfusion h⟩

/-- Witness for C8 at the concrete config `cfgW` (two inputs) in the
all-succeeding world `wW`. -/
theorem download_inputs_spec_witness :
    (cfgW.inputs.all
      (fun p => wW.ok (Effect.download p.2 (some ['D']))) = true) ∧
    (download_inputs wW ['D'] (fun k => k) cfgW (make_task_status cfgW) =
      (cfgW.inputs.map (fun p => Effect.download p.2 (some ['D'])),
       { make_task_status cfgW with
          messages := (make_task_status cfgW).messages ++
            input_msgs (fun k => k) 0 cfgW.inputs },
       Except.ok (cfgW.inputs.map
         (fun p => (p.1, wW.downloadPath p.2 (some ['D']))))) ∧
    (cfgW.inputs.map
        (fun p => (p.1, wW.downloadPath p.2 (some ['D'])))).map Prod.fst
      = cfgW.inputs.map Prod.fst ∧
    (input_msgs (fun k => k) 0 cfgW.inputs).length = cfgW.inputs.length ∧
    (∀ e ∈ cfgW.inputs.map (fun p => Effect.download p.2 (some ['D'])),
      (∀ doc dest, e ≠ Effect.uploadBytes doc dest) ∧
      (∀ jid s ftp, e ≠ Effect.updateJobState jid s ftp))) :=
  ⟨rfl, download_inputs_spec wW ['D'] (fun k => k) cfgW
    (make_task_status cfgW) rfl⟩

theorem param_msgs_length (ts : Nat → Nat) :
    ∀ (k : Nat) (l : List (Str × ParamValue)),
      (param_msgs ts k l).length =
        (l.filter (fun p => is_path_config_dict p.2)).length
  | _, [] => rfl
  | k, (_, ParamValue.location _) :: rest => by
    simp [param_msgs, is_path_config_dict, List.filter_cons,
      param_msgs_length ts (k + 1) rest]
  | k, (_, ParamValue.literal _) :: rest => by
    simp [param_msgs, is_path_config_dict, List.filter_cons,
      param_msgs_length ts k rest]

theorem parse_parameters_go_spec (w : World) (dir : Option Str)
    (ts : Nat → Nat) :
    ∀ (params : List (Str × ParamValue)) (k : Nat) (st : TaskStatus),
      params.all (param_dl_ok w dir) = true →
      parse_parameters_go w dir ts k params st =
        (param_trace dir params,
         { st with messages := st.messages ++ param_msgs ts k params },
         Except.ok (params.map (fun p => (p.1, param_out w dir p.2))))
  | [], _, st, _ => by simp [parse_parameters_go, param_msgs, param_trace]
  | (name, ParamValue.location pc) :: rest, k, st, hok => by
    simp only [List.all_cons, Bool.and_eq_true, param_dl_ok] at hok
    have ih := parse_parameters_go_spec w dir ts rest (k + 1)
      ((st.add_message (param_msg name) (ts k)).1) hok.2
    simp only [TaskStatus.add_message] at ih
    simp [parse_parameters_go, hok.1, TaskStatus.add_message, ih, param_msgs,
      param_trace, param_out, Except.map, List.append_assoc]
  | (name, ParamValue.literal v) :: rest, k, st, hok => by
    simp only [List.all_cons, Bool.and_eq_true, param_dl_ok] at hok
    have ih := parse_parameters_go_spec w dir ts rest k st hok.2
    simp [parse_parameters_go, ih, param_msgs, param_trace, param_out,
      Except.map]

/-- C7: for every TaskConfig and data directory, when every data-parameter
download succeeds, `parse_parameters` returns a mapping with exactly one
entry per parameter, with the keys in config order: a parameter whose
value passes the remote-location-spec shape test maps to the local path
obtained by downloading it into the data directory (`param_out`), with one
progress message appended per such parameter (`param_msgs` recording one
message for location parameters and none for literal ones), and a
parameter failing the shape test is exactly a literal mapped to its value
unchanged with no message. -/
theorem parse_parameters_spec (w : World) (d : Str) (ts : Nat → Nat)
    (cfg : TaskConfig) (st : TaskStatus)
    (hok : cfg.parameters.all (param_dl_ok w (some d)) = true) :
    parse_parameters w (some d) ts cfg st =
      (param_trace (some d) cfg.parameters,
       { st with messages := st.messages ++ param_msgs ts 0 cfg.parameters },
       Except.ok (cfg.parameters.map
         (fun p => (p.1, param_out w (some d) p.2)))) ∧
    (cfg.parameters.map
        (fun p => (p.1, param_out w (some d) p.2))).map Prod.fst
      = cfg.parameters.map Prod.fst ∧
    (param_msgs ts 0 cfg.parameters).length =
      (cfg.parameters.filter (fun p => is_path_config_dict p.2)).length ∧
    (∀ pc, is_path_config_dict (ParamValue.location pc) = true ∧
      param_out w (some d) (ParamValue.location pc)
        = w.downloadPath pc (some d)) ∧
    (∀ v, is_path_config_dict v = false →
      ∃ x, v = ParamValue.literal x ∧ param_out w (some d) v = x) := by
  refine ⟨parse_parameters_go_spec w (some d) ts cfg.parameters 0 st hok,
    keys_of_pairs cfg.parameters _, param_msgs_length ts 0 cfg.parameters,
    fun pc => ⟨rfl, rfl⟩, ?_⟩
  intro v hv
  cases v with
  | literal x => exact ⟨x, rfl, rfl⟩
  | location pc => exact absurd hv (by simp [is_path_config_dict])

/-- Witness for C7 at the concrete config `cfgW` (one literal parameter,
one remote-location parameter) in the all-succeeding world `wW`. -/
theorem parse_parameters_spec_witness :
    (cfgW.parameters.all (param_dl_ok wW (some ['D'])) = true) ∧
    (parse_parameters wW (some ['D']) (fun k => k) cfgW
        (make_task_status cfgW) =
      (param_trace (some ['D']) cfgW.parameters,
       { make_task_status cfgW with
          messages := (make_task_status cfgW).messages ++
            param_msgs (fun k => k) 0 cfgW.parameters },
       Except.ok (cfgW.parameters.map
         (fun p => (p.1, param_out wW (some ['D']) p.2)))) ∧
    (cfgW.parameters.map
        (fun p => (p.1, param_out wW (some ['D']) p.2))).map Prod.fst
      = cfgW.parameters.map Prod.fst ∧
    (param_msgs (fun k => k) 0 cfgW.parameters).length =
      (cfgW.parameters.filter (fun p => is_path_config_dict p.2)).length ∧
    (∀ pc, is_path_config_dict (ParamValue.location pc) = true ∧
      param_out wW (some ['D']) (ParamValue.location pc)
        = wW.downloadPath pc (some ['D'])) ∧
    (∀ v, is_path_config_dict v = false →
      ∃ x, v = ParamValue.literal x ∧ param_out wW (some ['D']) v = x)) :=
  ⟨rfl, parse_parameters_spec wW ['D'] (fun k => k) cfgW
    (make_task_status cfgW) rfl⟩

theorem takeWhile_ne_append {x : Char} :
    ∀ (l : Str), (∀ a ∈ l, a ≠ x) → ∀ r : Str,
      (l ++ r).takeWhile (fun c => c ≠ x) = l ++ r.takeWhile (fun c => c ≠ x)
  | [], _, _ => rfl
  | a :: t, h, r => by
    have ha : a ≠ x := h a (List.mem_cons_self a t)
    have ih := takeWhile_ne_append t
      (fun b hb => h b (List.mem_cons_of_mem a hb)) r
    simp only [List.cons_append]
    rw [List.takeWhile_cons_of_pos (by simpa using ha), ih]

theorem takeWhile_ne_stop {x : Char} {l : Str} (h : ∀ a ∈ l, a ≠ x)
    (r : Str) : (l ++ x :: r).takeWhile (fun c => c ≠ x) = l := by
  rw [takeWhile_ne_append l h (x :: r),
    List.takeWhile_cons_of_neg (by simp), List.append_nil]

theorem takeWhile_ne_self {x : Char} {l : Str} (h : ∀ a ∈ l, a ≠ x) :
    l.takeWhile (fun c => c ≠ x) = l := by
  have h2 := takeWhile_ne_append l h []
  simpa using h2

theorem dropWhile_ne_stop {x : Char} :
    ∀ (l : Str), (∀ a ∈ l, a ≠ x) → ∀ r : Str,
      (l ++ x :: r).dropWhile (fun c => c ≠ x) = x :: r
  | [], _, r => by
    rw [List.nil_append, List.dropWhile_cons_of_neg (by simp)]
  | a :: t, h, r => by
    have ha : a ≠ x := h a (List.mem_cons_self a t)
    have ih := dropWhile_ne_stop t
      (fun b hb => h b (List.mem_cons_of_mem a hb)) r
    simp only [List.cons_append]
    rw [List.dropWhile_cons_of_pos (by simpa using ha), ih]

theorem any_eq_char_false {x : Char} :
    ∀ {l : Str}, (∀ a ∈ l, a ≠ x) → l.any (fun c => c = x) = false
  | [], _ => rfl
  | a :: t, h => by
    have ha : a ≠ x := h a (List.mem_cons_self a t)
    have ih := any_eq_char_false (fun b hb => h b (List.mem_cons_of_mem a hb))
    simp [List.any_cons, ih, ha]

theorem ok_seg_spec {bad : List Char} {s : Str} (h : ok_seg bad s = true) :
    ∀ c ∈ s, c ∉ bad := by
  intro c hc
  have h2 := List.all_eq_true.mp h c hc
  simpa using h2

theorem ne_of_ok_seg {bad : List Char} {s : Str} (h : ok_seg bad s = true)
    {x : Char} (hx : x ∈ bad) : ∀ a ∈ s, a ≠ x :=
  fun a ha heq => (ok_seg_spec h a ha) (heq.symm ▸ hx)

theorem strip_scheme_https (r : Str) :
    strip_scheme ("https://".data ++ r) = '/' :: '/' :: r := rfl

theorem unquote_no_percent : ∀ {s : Str}, (∀ c ∈ s, c ≠ '%') → unquote s = s
  | [], _ => by rw [unquote.eq_def]
  | c :: rest, h => by
    have hc : c ≠ '%' := h c (List.mem_cons_self c rest)
    have ih := unquote_no_percent (fun b hb => h b (List.mem_cons_of_mem c hb))
    rw [unquote.eq_def]
    simp [hc, ih]

theorem basename_append {fname : Str} (hf : ∀ c ∈ fname, c ≠ '/')
    (y : Str) : basename (y ++ '/' :: fname) = fname := by
  have hrev : ∀ c ∈ fname.reverse, c ≠ '/' :=
    fun c hc => hf c (List.mem_reverse.mp hc)
  simp only [basename]
  rw [List.reverse_append, List.reverse_cons, List.append_assoc,
    List.singleton_append, takeWhile_ne_stop hrev, List.reverse_reverse]

theorem split_params_keep {fname : Str} (hf : ∀ c ∈ fname, c ≠ '/')
    (hsemi : ∀ c ∈ fname, c ≠ ';') (x : Str) :
    split_params (x ++ '/' :: fname) = x ++ '/' :: fname := by
  have hrev : ∀ c ∈ fname.reverse, c ≠ '/' :=
    fun c hc => hf c (List.mem_reverse.mp hc)
  have hx : x ++ '/' :: fname = (x ++ ['/']) ++ fname := by simp
  simp only [split_params]
  rw [List.reverse_append, List.reverse_cons, List.append_assoc,
    List.singleton_append, takeWhile_ne_stop hrev, List.reverse_reverse,
    takeWhile_ne_self hsemi, hx]
  rw [show ((x ++ ['/']) ++ fname).length - fname.length
      = (x ++ ['/']).length by simp [List.length_append]; omega]
  rw [List.take_left]

theorem dirname_append {jobId fname : Str} (hjne : jobId ≠ [])
    (hj : ∀ c ∈ jobId, c ≠ '/') (hf : ∀ c ∈ fname, c ≠ '/') (x : Str) :
    dirname ((x ++ '/' :: jobId) ++ '/' :: fname) = x ++ '/' :: jobId := by
  have hfrev : ∀ c ∈ fname.reverse, c ≠ '/' :=
    fun c hc => hf c (List.mem_reverse.mp hc)
  obtain ⟨c0, jr, hj0⟩ : ∃ c0 jr, jobId.reverse = c0 :: jr := by
    cases hrev : jobId.reverse with
    | nil => exact absurd (by simpa using congrArg List.reverse hrev) hjne
    | cons c0 jr => exact ⟨c0, jr, rfl⟩
  have hc0 : c0 ≠ '/' :=
    hj c0 (List.mem_reverse.mp (hj0 ▸ List.mem_cons_self c0 jr))
  have hrevp : ((x ++ '/' :: jobId) ++ '/' :: fname).reverse
      = fname.reverse ++ '/' :: (jobId.reverse ++ '/' :: x.reverse) := by
    simp [List.reverse_append, List.append_assoc]
  have hdrop : (fname.reverse ++ '/' :: (jobId.reverse ++ '/' :: x.reverse)).dropWhile
      (fun c => c ≠ '/') = '/' :: (jobId.reverse ++ '/' :: x.reverse) :=
    dropWhile_ne_stop fname.reverse hfrev _
  have hany : (('/' : Char) :: (jobId.reverse ++ '/' :: x.reverse)).any
      (fun c => c ≠ '/') = true := by
    refine List.any_eq_true.mpr ⟨c0, ?_, by simpa using hc0⟩
    exact List.mem_cons_of_mem _
      (List.mem_append_left _ (hj0 ▸ List.mem_cons_self c0 jr))
  have hdrop2 : (('/' : Char) :: (jobId.reverse ++ '/' :: x.reverse)).dropWhile
      (fun c => c = '/') = jobId.reverse ++ '/' :: x.reverse := by
    rw [List.dropWhile_cons_of_pos (by simp), hj0, List.cons_append,
      List.dropWhile_cons_of_neg (by simpa using hc0), ← List.cons_append,
      ← hj0]
  simp only [dirname]
  rw [hrevp, hdrop, if_pos ⟨List.cons_ne_nil _ _, hany⟩, hdrop2]
  simp [List.reverse_append]

/-- The path that `urlparse` extracts from a URL of the well-formed shape
`mk_url host mid jobId fname q`. -/
theorem urlparse_path_mk_url (host mid jobId fname q : Str)
    (hhost : ok_seg ['/', '?', '#', '[', ']'] host = true)
    (hmid : ok_seg ['?', '#', '%'] mid = true)
    (hjob : ok_seg ['/', '?', '#', '%'] jobId = true)
    (hfname : ok_seg ['/', '?', '#', '%', ';'] fname = true) :
    urlparse_path (mk_url host mid jobId fname q) =
      Except.ok ((('/' :: mid) ++ '/' :: jobId) ++ '/' :: fname) := by
  have hseg : ∀ a ∈ ("https://".data ++ host ++ ['/'] ++ mid ++ ['/'] ++
      jobId ++ ['/'] ++ fname), a ≠ '#' ∧ a ≠ '?' := by
    intro a ha
    have hsch : ∀ c ∈ ("https://".data : Str), c ≠ '#' ∧ c ≠ '?' := by decide
    simp only [List.mem_append, List.mem_singleton] at ha
    rcases ha with ((((((hs | hh) | hsl) | hm) | hsl2) | hjb) | hsl3) | hfn
    · exact hsch a hs
    · exact ⟨ne_of_ok_seg hhost (by decide) a hh,
             ne_of_ok_seg hhost (by decide) a hh⟩
    · subst hsl; exact ⟨by decide, by decide⟩
    · exact ⟨ne_of_ok_seg hmid (by decide) a hm,
             ne_of_ok_seg hmid (by decide) a hm⟩
    · subst hsl2; exact ⟨by decide, by decide⟩
    · exact ⟨ne_of_ok_seg hjob (by decide) a hjb,
             ne_of_ok_seg hjob (by decide) a hjb⟩
    · subst hsl3; exact ⟨by decide, by decide⟩
    · exact ⟨ne_of_ok_seg hfname (by decide) a hfn,
             ne_of_ok_seg hfname (by decide) a hfn⟩
  have hmk : mk_url host mid jobId fname q =
      ("https://".data ++ host ++ ['/'] ++ mid ++ ['/'] ++ jobId ++ ['/'] ++
        fname) ++ '?' :: q := by
    simp [mk_url, List.append_assoc]
  have h2 : (("https://".data ++ host ++ ['/'] ++ mid ++ ['/'] ++ jobId ++
      ['/'] ++ fname) ++ '?' :: q).takeWhile (fun c => c ≠ '#') =
      ("https://".data ++ host ++ ['/'] ++ mid ++ ['/'] ++ jobId ++ ['/'] ++
        fname) ++ '?' :: q.takeWhile (fun c => c ≠ '#') := by
    rw [takeWhile_ne_append _ (fun a ha => (hseg a ha).1) _,
      List.takeWhile_cons_of_pos (by decide)]
  have h4 : (("https://".data ++ host ++ ['/'] ++ mid ++ ['/'] ++ jobId ++
      ['/'] ++ fname) ++ '?' :: q.takeWhile (fun c => c ≠ '#')).takeWhile
        (fun c => c ≠ '?') =
      ("https://".data ++ host ++ ['/'] ++ mid ++ ['/'] ++ jobId ++ ['/'] ++
        fname) :=
    takeWhile_ne_stop (fun a ha => (hseg a ha).2) _
  have hAB : ("https://".data ++ host ++ ['/'] ++ mid ++ ['/'] ++ jobId ++
      ['/'] ++ fname) = "https://".data ++
        (host ++ '/' :: (mid ++ '/' :: (jobId ++ '/' :: fname))) := by
    simp [List.append_assoc]
  have hnet : (host ++ '/' :: (mid ++ '/' :: (jobId ++ '/' :: fname))).takeWhile
      (fun c => c ≠ '/') = host :=
    takeWhile_ne_stop (ne_of_ok_seg hhost (by decide)) _
  have hinv : invalid_ipv6_netloc host = false := by
    simp only [invalid_ipv6_netloc]
    rw [any_eq_char_false (ne_of_ok_seg hhost (by decide)),
      any_eq_char_false (ne_of_ok_seg hhost (by decide))]
    rfl
  have hdrop : (host ++ '/' :: (mid ++ '/' :: (jobId ++ '/' :: fname))).dropWhile
      (fun c => c ≠ '/') = '/' :: (mid ++ '/' :: (jobId ++ '/' :: fname)) :=
    dropWhile_ne_stop host (ne_of_ok_seg hhost (by decide)) _
  have hP : ('/' : Char) :: (mid ++ '/' :: (jobId ++ '/' :: fname)) =
      (('/' :: mid) ++ '/' :: jobId) ++ '/' :: fname := by
    simp [List.append_assoc]
  have hsplit : split_params ((('/' :: mid) ++ '/' :: jobId) ++ '/' :: fname)
      = (('/' :: mid) ++ '/' :: jobId) ++ '/' :: fname :=
    split_params_keep (ne_of_ok_seg hfname (by decide))
      (ne_of_ok_seg hfname (by decide)) _
  simp only [urlparse_path]
  rw [hmk, h2, h4, hAB, strip_scheme_https]
  show (if invalid_ipv6_netloc ((host ++ '/' :: (mid ++ '/' :: (jobId ++
      '/' :: fname))).takeWhile (fun c => c ≠ '/')) then Except.error ()
    else Except.ok (split_params ((host ++ '/' :: (mid ++ '/' :: (jobId ++
      '/' :: fname))).dropWhile (fun c => c ≠ '/')))) = _
  rw [hnet, hinv, hdrop, hP, hsplit]
  rfl

/-- C2 counterexample: the claim asserts that no exception escapes
`fail_epically` even when the job-id extraction itself fails, but the
extraction (`urlparse` + `os.path`) happens OUTSIDE the `try` block
(task.py lines 663-664 vs 666-677).  At this concrete URL the stdlib
`urlparse` raises `ValueError("Invalid IPv6 URL")` (netloc `[bad` has an
unmatched bracket), so `fail_epically` raises instead of swallowing:
the model returns `Except.error ()` and no platform call is attempted. -/
theorem fail_epically_extraction_escape :
    fail_epically wW "http://[bad/job-123/status.json".data
      = Except.error () := rfl

set_option maxHeartbeats 1000000 in
/-- C2 (amended): for every URL of the conventional shape
`<scheme>://<host>/<mid>/<jobId>/<fname>?<query>` — on which the job-id
extraction succeeds — `fail_epically` extracts the parent path segment of
the final path component after removing the query string, attempts exactly
one platform call `update_job_state(jobId, FAILED, PLATFORM)`, and returns
the same trace for every `World`, so a failure of the platform call itself
never escapes.  An extraction failure, by contrast, escapes (see the
counterexample): the extraction runs outside the `try` block. -/
theorem fail_epically_reports_platform (w : World)
    (host mid jobId fname q : Str)
    (hhost : ok_seg ['/', '?', '#', '[', ']'] host = true)
    (hmid : ok_seg ['?', '#', '%'] mid = true)
    (hjob : ok_seg ['/', '?', '#', '%'] jobId = true)
    (hjobne : jobId ≠ [])
    (hfname : ok_seg ['/', '?', '#', '%', ';'] fname = true) :
    fail_epically w (mk_url host mid jobId fname q) =
      Except.ok [Effect.updateJobState jobId TaskState.FAILED
        (some TaskFailureType.PLATFORM)] := by
  have hpath := urlparse_path_mk_url host mid jobId fname q hhost hmid hjob
    hfname
  have hnp : ∀ c ∈ ((('/' :: mid) ++ '/' :: jobId) ++ '/' :: fname),
      c ≠ '%' := by
    intro c hc
    have hmem : c = '/' ∨ c ∈ mid ∨ c ∈ jobId ∨ c ∈ fname := by
      simp only [List.cons_append, List.mem_cons, List.mem_append] at hc
      tauto
    rcases hmem with h | h | h | h
    · subst h; decide
    · exact ne_of_ok_seg hmid (by decide) c h
    · exact ne_of_ok_seg hjob (by decide) c h
    · exact ne_of_ok_seg hfname (by decide) c h
  simp only [fail_epically, hpath]
  rw [unquote_no_percent hnp,
    dirname_append hjobne (ne_of_ok_seg hjob (by decide))
      (ne_of_ok_seg hfname (by decide)) ('/' :: mid),
    basename_append (ne_of_ok_seg hjob (by decide)) ('/' :: mid)]

/-- Witness for the amended C2 at the spec's example URL
`https://storage.example.com/projects/job-123/status.json?sig=abc`. -/
theorem fail_epically_reports_platform_witness :
    ok_seg ['/', '?', '#', '[', ']'] "storage.example.com".data = true ∧
    ok_seg ['?', '#', '%'] "projects".data = true ∧
    ok_seg ['/', '?', '#', '%'] "job-123".data = true ∧
    "job-123".data ≠ [] ∧
    ok_seg ['/', '?', '#', '%', ';'] "status.json".data = true ∧
    fail_epically wW (mk_url "storage.example.com".data "projects".data
        "job-123".data "status.json".data "sig=abc".data) =
      Except.ok [Effect.updateJobState "job-123".data TaskState.FAILED
        (some TaskFailureType.PLATFORM)] :=
  ⟨by decide, by decide, by decide, by decide, by decide,
    fail_epically_reports_platform wW "storage.example.com".data
      "projects".data "job-123".data "status.json".data "sig=abc".data
      (by decide) (by decide) (by decide) (by decide) (by decide)⟩

end Voxel
